import Mathlib

/-!
Verification development for the sawGalilController component
(`core/components/code/mtsGalilController.cpp`).

The C++ component is embedded shallowly:

* the static per-model tables (lines 121-146) become lookup functions on a
  model index `m < 6`;
* the data-record decoding performed in `Run` (lines 646-739), which casts
  raw frame bytes to `AxisDataMin` / `AxisDataOld` / `AxisDataNew` /
  `AxisDataMax` structures, becomes an `Option`-valued decoder over a byte
  list, failing exactly when a cast would reach past the end of the frame;
* the command synthesis helpers `WriteCmdAxes` / `WriteCmdValues`
  (lines 902-929) become pure functions on character lists;
* the axis-mask helpers `GetGalilIndexValid` / `GetGalilAxes`
  (lines 1157-1184) become pure list functions;
* the mutable controller object becomes a `Controller` record, and each
  command method (`Configure`, `Home`, `UnHome`, `FindEdge`, `FindIndex`,
  `servo_jp`, `servo_jr`, `servo_jv`, ...) becomes a function from the
  record (plus the request payload) to the new record together with the
  list of ASCII command strings sent to the hardware and the list of
  operator messages emitted;
* the periodic `Run` method becomes `runTick`, taking the (optionally
  failed) data record for this tick.

`double` configuration quantities (positions, scales) are modelled as `Rat`;
only order comparisons and exact arithmetic on them are relied upon.
-/

namespace Galil

/-! ### Static model tables (mtsGalilController.cpp lines 108-146) -/

/-- Stop code 0: motors are running. -/
def SC_Running : Nat := 0

/-- Stop code 2: stopped at forward limit switch. -/
def SC_FwdLim : Nat := 2

/-- Stop code 3: stopped at reverse limit switch. -/
def SC_RevLim : Nat := 3

/-- Stop code 9: stopped after finding edge (FE). -/
def SC_FindEdge : Nat := 9

/-- Stop code 10: stopped after homing (HM) or find index (FI). -/
def SC_Homing : Nat := 10

/-- Number of supported DMC controller models. -/
def NUM_MODELS : Nat := 6

/-- `sizeof(AxisDataOld)`: 24-byte common part + int16 torque + uint16 analog. -/
def ADold : Nat := 28

/-- `sizeof(AxisDataNew)`: 24-byte common part + int32 torque + uint16 analog. -/
def ADnew : Nat := 30

/-- `sizeof(AxisDataMax)`: `AxisDataNew` + hall + reserved + int32 user var. -/
def ADmax : Nat := 36

/-- Model types, indexed by model index. -/
def ModelTypes (m : Nat) : Nat := [4000, 52000, 1806, 2103, 1802, 30000].getD m 0

/-- Byte offset to the start of the axis data. -/
def AxisDataOffset (m : Nat) : Nat := [82, 82, 78, 44, 40, 38].getD m 0

/-- Size (stride) of the per-axis data block. -/
def AxisDataSize (m : Nat) : Nat := [ADmax, ADmax, ADnew, ADold, ADold, ADmax].getD m 0

/-- Whether the first 4 bytes of the record contain header information. -/
def HasHeader (m : Nat) : Bool := [true, true, false, true, false, true].getD m false

/-- Byte offset to the sample number (uint16). -/
def SampleOffset (m : Nat) : Nat := [4, 4, 0, 4, 0, 4].getD m 0

/-- Byte offset to the error code (one byte). -/
def ErrorCodeOffset (m : Nat) : Nat := [50, 50, 46, 26, 22, 10].getD m 0

/-- Byte offset to amplifier status (uint32); -1 means not available. -/
def AmpStatusOffset (m : Nat) : Int := [(52 : Int), 52, -1, -1, -1, 18].getD m (-1)

/-- Whether the controller supports the LD (limit disable) command. -/
def HasLimitDisable (m : Nat) : Bool := [true, true, true, false, false, true].getD m false

/-- Whether the controller supports the ZA (user data) command. -/
def HasUserDataZA (m : Nat) : Bool := [true, true, true, false, false, true].getD m false

/-! ### Frame decoding (mtsGalilController.cpp lines 646-695)

`Run` obtains a raw record and reads, per configured axis, an
`AxisDataOld` / `AxisDataNew` / `AxisDataMax` structure
(selected by model) at byte offset
`AxisDataOffset[model] + channel * AxisDataSize[model]`,
plus the frame-level header, sample number, error code and
amplifier status at fixed per-model offsets.  The decoder below
performs the same reads over a byte list; a read past the end of the
frame is a decode failure. -/

/-- Read `len` bytes starting at offset `off`; fails when the range is
not contained in the frame. -/
def readBytes (frame : List Nat) (off len : Nat) : Option (List Nat) :=
  if off + len ≤ frame.length then some ((frame.drop off).take len) else none

/-- Little-endian unsigned value of a byte list. -/
def leU (bs : List Nat) : Nat := bs.foldr (fun b acc => b + 256 * acc) 0

/-- Little-endian two's-complement signed value of a byte list. -/
def leS (bs : List Nat) : Int :=
  let v := leU bs
  if v < 2 ^ (8 * bs.length - 1) then (v : Int) else (v : Int) - 2 ^ (8 * bs.length)

/-- Bytes `[off, off+len)` of an already-extracted record (total; the
record is known to be long enough). -/
def sub (rec : List Nat) (off len : Nat) : List Nat := (rec.drop off).take len

/-- One decoded per-axis record (union of the fields of `AxisDataOld`,
`AxisDataNew` and `AxisDataMax`; `var` is 0 on models that do not
provide it, `analog_in` is 0 on the DMC 1802 which has none). -/
structure AxisSample where
  status : Nat
  switches : Nat
  stop_code : Nat
  ref_pos : Int
  pos : Int
  pos_error : Int
  aux_pos : Int
  vel : Int
  torque : Int
  analog_in : Nat
  var : Int
deriving Repr, DecidableEq, Inhabited

/-- Parse the axis-data block of one axis.  The width-independent part
(`AxisDataMin`, bytes 0-23) is read identically for all models; torque and
analog input are 16-bit on the DMC 2103/1802 (`AxisDataOld`) and 32-bit
otherwise (`AxisDataNew`); the user `var` field exists only on models whose
stride is `sizeof(AxisDataMax)`. -/
def parseAxis (m : Nat) (rec : List Nat) : AxisSample :=
  let base : AxisSample :=
    { status := leU (sub rec 0 2), switches := leU (sub rec 2 1),
      stop_code := leU (sub rec 3 1), ref_pos := leS (sub rec 4 4),
      pos := leS (sub rec 8 4), pos_error := leS (sub rec 12 4),
      aux_pos := leS (sub rec 16 4), vel := leS (sub rec 20 4),
      torque := 0, analog_in := 0, var := 0 }
  if ModelTypes m = 1802 ∨ ModelTypes m = 2103 then
    { base with torque := leS (sub rec 24 2),
                analog_in := if ModelTypes m = 1802 then 0 else leU (sub rec 26 2) }
  else
    { base with torque := leS (sub rec 24 4), analog_in := leU (sub rec 28 2),
                var := if AxisDataSize m = ADmax then leS (sub rec 32 4) else 0 }

/-- Extract and parse the axis-data block of physical channel `chan`. -/
def decodeAxis (m : Nat) (frame : List Nat) (chan : Nat) : Option AxisSample :=
  (readBytes frame (AxisDataOffset m + chan * AxisDataSize m) (AxisDataSize m)).map (parseAxis m)

/-- Decode the axis-data blocks of a list of physical channels, in order. -/
def decodeAxes (m : Nat) (frame : List Nat) : List Nat → Option (List AxisSample)
  | [] => some []
  | c :: rest =>
    match decodeAxis m frame c, decodeAxes m frame rest with
    | some a, some as => some (a :: as)
    | _, _ => none

/-- Frame-level fields of a decoded record. -/
structure FrameHeader where
  header : Option Nat
  sampleNum : Nat
  errorCode : Nat
  ampStatus : Option Nat
deriving Repr, DecidableEq

/-- Read the 4 header bytes when the model has a header. -/
def readHeader (m : Nat) (frame : List Nat) : Option (Option Nat) :=
  if HasHeader m then (readBytes frame 0 4).map (fun bs => some (leU bs)) else some none

/-- Read the amplifier status when the model provides it (offset ≥ 0). -/
def readAmpStatus (m : Nat) (frame : List Nat) : Option (Option Nat) :=
  if 0 ≤ AmpStatusOffset m then
    (readBytes frame (AmpStatusOffset m).toNat 4).map (fun bs => some (leU bs))
  else some none

/-- Decode the frame-level fields. -/
def decodeFrameHeader (m : Nat) (frame : List Nat) : Option FrameHeader :=
  match readHeader m frame, readBytes frame (SampleOffset m) 2,
        readBytes frame (ErrorCodeOffset m) 1, readAmpStatus m frame with
  | some h, some s, some e, some a =>
      some { header := h, sampleNum := leU s, errorCode := leU e, ampStatus := a }
  | _, _, _, _ => none

/-- Decode a full data record for the given model and list of configured
physical channels. -/
def decode (m : Nat) (chans : List Nat) (frame : List Nat) :
    Option (FrameHeader × List AxisSample) :=
  match decodeFrameHeader m frame, decodeAxes m frame chans with
  | some h, some as => some (h, as)
  | _, _ => none

/-- The exclusive maximum channel of a channel list (`mGalilIndexMax`
after the `Configure` increment): largest channel plus one. -/
def maxChannelExcl (chans : List Nat) : Nat := chans.foldr max 0 + 1

/-! ### Command synthesis (mtsGalilController.cpp lines 902-929) -/

/-- `WriteCmdAxes`: the command verb followed by the list of axis letters
(e.g. `"BG ACD"`). -/
def writeCmdAxes (cmd : String) (axes : List Char) : String := cmd ++ String.mk axes

/-- The character sequence appended by the loop of `WriteCmdValues`:
for each channel `i < num`, the decimal value followed by a comma when
`valid i`, and a bare comma otherwise. -/
def cmdFieldChars (data : Nat → Int) (valid : Nat → Bool) : Nat → List Char
  | 0 => []
  | n + 1 =>
    cmdFieldChars data valid n ++
      (if valid n then (toString (data n)).toList ++ [','] else [','])

/-- `WriteCmdValues`: the command verb followed by one comma-separated
field per channel, the final character (the trailing comma) removed. -/
def writeCmdValues (cmd : List Char) (data : Nat → Int) (valid : Nat → Bool)
    (num : Nat) : List Char :=
  (cmd ++ cmdFieldChars data valid num).dropLast

/-- `WriteCmdValues` producing a `String` from a `String` verb. -/
def writeCmdValuesStr (cmd : String) (data : Nat → Int) (valid : Nat → Bool)
    (num : Nat) : String :=
  String.mk (writeCmdValues cmd.toList data valid num)

/-! ### Axis mask / letter derivation (mtsGalilController.cpp lines 1157-1184) -/

/-- The write loop of `GetGalilIndexValid`: for each logical axis `i`
with `mask[i]` set, mark physical channel `a2g[i]` valid. -/
def setValidBits (a2g : List Nat) : Nat → List Bool → List Bool → List Bool
  | _, [], acc => acc
  | i, b :: rest, acc =>
    setValidBits a2g (i + 1) rest (if b then acc.set (a2g.getD i 0) true else acc)

/-- `GetGalilIndexValid`: the per-physical-channel validity mask (channels
`0 ..< maxIdx`) of a logical-axis mask. -/
def getGalilIndexValid (a2g : List Nat) (maxIdx : Nat) (mask : List Bool) : List Bool :=
  setValidBits a2g 0 mask (List.replicate maxIdx false)

/-- `GetGalilAxes`: ascending scan over the validity mask, emitting the
channel letter (`'A' + channel`) of every valid channel; `g` is the
channel number of the head of `valid`. -/
def getGalilAxes : List Bool → Nat → List Char
  | [], _ => []
  | b :: rest, g =>
    (if b then [Char.ofNat (65 + g)] else []) ++ getGalilAxes rest (g + 1)

/-! ### Decoder length lemmas (claim C2) -/

theorem readBytes_isSome (frame : List Nat) (off len : Nat) :
    (readBytes frame off len).isSome ↔ off + len ≤ frame.length := by
  by_cases h : off + len ≤ frame.length <;> simp [readBytes, h]

theorem decodeAxis_isSome (m : Nat) (frame : List Nat) (c : Nat) :
    (decodeAxis m frame c).isSome ↔
      AxisDataOffset m + c * AxisDataSize m + AxisDataSize m ≤ frame.length := by
  rw [← readBytes_isSome]
  rcases h : readBytes frame (AxisDataOffset m + c * AxisDataSize m) (AxisDataSize m) with _ | bs <;>
    simp [decodeAxis, h]

theorem decodeAxes_isSome (m : Nat) (frame : List Nat) (chans : List Nat) :
    (decodeAxes m frame chans).isSome ↔
      ∀ c ∈ chans, AxisDataOffset m + c * AxisDataSize m + AxisDataSize m ≤ frame.length := by
  induction chans with
  | nil => simp [decodeAxes]
  | cons c rest ih =>
    rw [decodeAxes]
    rcases h1 : decodeAxis m frame c with _ | a <;>
      rcases h2 : decodeAxes m frame rest with _ | as <;>
        simp_all [← decodeAxis_isSome m frame c, h1]

theorem readHeader_isSome (m : Nat) (frame : List Nat) :
    (readHeader m frame).isSome ↔ (HasHeader m = true → 4 ≤ frame.length) := by
  by_cases h : HasHeader m <;>
    simp [readHeader, h, Option.isSome_map, readBytes_isSome]

theorem readAmpStatus_isSome (m : Nat) (frame : List Nat) :
    (readAmpStatus m frame).isSome ↔
      (0 ≤ AmpStatusOffset m → (AmpStatusOffset m).toNat + 4 ≤ frame.length) := by
  by_cases h : 0 ≤ AmpStatusOffset m <;>
    simp [readAmpStatus, h, Option.isSome_map, readBytes_isSome]

theorem decodeFrameHeader_isSome (m : Nat) (frame : List Nat) :
    (decodeFrameHeader m frame).isSome ↔
      (HasHeader m = true → 4 ≤ frame.length) ∧
      SampleOffset m + 2 ≤ frame.length ∧
      ErrorCodeOffset m + 1 ≤ frame.length ∧
      (0 ≤ AmpStatusOffset m → (AmpStatusOffset m).toNat + 4 ≤ frame.length) := by
  rw [← readHeader_isSome, ← readBytes_isSome frame (SampleOffset m) 2,
    ← readBytes_isSome frame (ErrorCodeOffset m) 1, ← readAmpStatus_isSome]
  rcases h1 : readHeader m frame with _ | h <;>
    rcases h2 : readBytes frame (SampleOffset m) 2 with _ | s <;>
      rcases h3 : readBytes frame (ErrorCodeOffset m) 1 with _ | e <;>
        rcases h4 : readAmpStatus m frame with _ | a <;>
          simp [decodeFrameHeader, h1, h2, h3, h4]

theorem decode_isSome (m : Nat) (chans : List Nat) (frame : List Nat) :
    (decode m chans frame).isSome ↔
      (decodeFrameHeader m frame).isSome ∧ (decodeAxes m frame chans).isSome := by
  rcases h1 : decodeFrameHeader m frame with _ | h <;>
    rcases h2 : decodeAxes m frame chans with _ | as <;>
      simp [decode, h1, h2]

theorem foldr_max_mem (l : List Nat) (h : l ≠ []) : l.foldr max 0 ∈ l := by
  induction l with
  | nil => exact absurd rfl h
  | cons a rest ih =>
    rcases rest with _ | ⟨b, rest'⟩
    · simp
    · rw [List.foldr_cons]
      rcases max_choice a ((b :: rest').foldr max 0) with hm | hm <;> rw [hm]
      · exact List.mem_cons_self ..
      · exact List.mem_cons_of_mem _ (ih (by simp))

theorem le_foldr_max (l : List Nat) (c : Nat) (hc : c ∈ l) : c ≤ l.foldr max 0 := by
  induction l with
  | nil => cases hc
  | cons a rest ih =>
    rcases List.mem_cons.mp hc with h | h
    · subst h; exact Nat.le_max_left ..
    · exact le_trans (ih h) (Nat.le_max_right ..)

/-- C2: For every one of the six model descriptors and every nonempty set of
configured physical channels, decoding a raw frame fails exactly when the
frame is shorter than `axisDataOffset + maxChannel * axisDataStride`; in
particular a frame of exactly that length always decodes, a frame one byte
shorter always fails, and success depends only on the frame's length, never
on its byte content. -/
theorem decode_isSome_iff_length (m : Nat) (hm : m < 6) (chans : List Nat)
    (hc : chans ≠ []) (frame : List Nat) :
    (decode m chans frame).isSome ↔
      AxisDataOffset m + maxChannelExcl chans * AxisDataSize m ≤ frame.length := by
  have hmem := foldr_max_mem chans hc
  rw [decode_isSome, decodeFrameHeader_isSome, decodeAxes_isSome, maxChannelExcl]
  interval_cases m <;>
  · simp only [AxisDataOffset, AxisDataSize, HasHeader, SampleOffset, ErrorCodeOffset,
      AmpStatusOffset, ADold, ADnew, ADmax]
    norm_num
    constructor
    · rintro ⟨-, hax⟩
      have := hax _ hmem
      omega
    · intro h
      refine ⟨?_, fun c hcm => ?_⟩
      · omega
      · have := le_foldr_max chans c hcm
        omega

/-- C2 witness: for the DMC 30000 descriptor with channel set {0}, the
minimum valid length is 38 + 1*36 = 74; a frame of exactly 74 bytes
decodes and one of 73 bytes fails. -/
theorem decode_isSome_iff_length_witness :
    (decode 5 [0] (List.replicate 74 0)).isSome = true ∧
    (decode 5 [0] (List.replicate 73 0)).isSome = false := by
  constructor
  · exact (decode_isSome_iff_length 5 (by norm_num) [0] (by simp) _).mpr
      (by simp [maxChannelExcl, AxisDataOffset, AxisDataSize, ADmax])
  · have h := decode_isSome_iff_length 5 (by norm_num) [0] (by simp) (List.replicate 73 0)
    simp [maxChannelExcl, AxisDataOffset, AxisDataSize, ADmax] at h
    simpa using h

/-! ### Rendering of sparse value commands (claim C6) -/

theorem intercalate_cons_of_ne_nil {α : Type} (s x : List α) (fs : List (List α))
    (h : fs ≠ []) :
    List.intercalate s (x :: fs) = x ++ s ++ List.intercalate s fs := by
  rcases fs with _ | ⟨y, rest⟩
  · exact absurd rfl h
  · simp [List.intercalate, List.intersperse]

theorem cmdFieldChars_eq_join (data : Nat → Int) (valid : Nat → Bool) (n : Nat) :
    cmdFieldChars data valid n =
      ((List.range n).map
        (fun i => (if valid i then (toString (data i)).toList else []) ++ [','])).flatten := by
  induction n with
  | zero => simp [cmdFieldChars]
  | succ n ih =>
    rw [cmdFieldChars, List.range_succ, List.map_append, List.flatten_append, ih]
    by_cases h : valid n <;> simp [h]

theorem join_comma_eq_intercalate {α : Type} (sep : List α) (fs : List (List α)) (h : fs ≠ []) :
    (fs.map (fun f => f ++ sep)).flatten = List.intercalate sep fs ++ sep := by
  induction fs with
  | nil => exact absurd rfl h
  | cons f rest ih =>
    rcases rest with _ | ⟨g, rest'⟩
    · simp [List.intercalate]
    · rw [List.map_cons, List.flatten_cons, ih (by simp),
        intercalate_cons_of_ne_nil sep f (g :: rest') (by simp)]
      simp

/-- C6: `WriteCmdValues` renders the verb followed by one comma-separated
field per physical channel `0 ..< num`, an empty field for each channel
whose `valid` flag is unset, with the trailing comma trimmed. -/
theorem writeCmdValues_spec (cmd : List Char) (data : Nat → Int) (valid : Nat → Bool)
    (num : Nat) (h : 1 ≤ num) :
    writeCmdValues cmd data valid num =
      cmd ++ List.intercalate [',']
        ((List.range num).map (fun i => if valid i then (toString (data i)).toList else [])) := by
  have hne : (List.range num).map
      (fun i => if valid i then (toString (data i)).toList else []) ≠ [] := by
    simp [List.map_eq_nil_iff, List.range_eq_nil]
    omega
  rw [writeCmdValues, cmdFieldChars_eq_join]
  rw [show (List.range num).map
        (fun i => (if valid i then (toString (data i)).toList else []) ++ [',']) =
      ((List.range num).map
        (fun i => if valid i then (toString (data i)).toList else [])).map
        (fun f => f ++ [',']) by rw [List.map_map]; rfl]
  rw [join_comma_eq_intercalate [','] _ hne, ← List.append_assoc, List.dropLast_concat]

/-- C6 witness: the exact example — verb `"PA "`, sparse values
{0 ↦ 10, 2 ↦ 20, 3 ↦ 30} over channels 0..3 — renders to `"PA 10,,20,30"`. -/
theorem writeCmdValues_spec_witness :
    String.mk (writeCmdValues "PA ".toList
      (fun i => [(10 : Int), 0, 20, 30].getD i 0)
      (fun i => [true, false, true, true].getD i false) 4) = "PA 10,,20,30" := by
  rw [writeCmdValues_spec _ _ _ 4 (by norm_num)]
  decide

/-! ### Letters and validity masks (claim C7) -/

theorem charToNat_ofNat (a : Nat) (ha : a < 55296) : (Char.ofNat a).toNat = a := by
  have hva : a.isValidChar := Or.inl ha
  simp only [Char.ofNat, hva, dif_pos, Char.ofNatAux, Char.toNat, UInt32.toNat, UInt32.ofNat',
    BitVec.toNat_ofNatLt]

theorem charLt_ofNat (a b : Nat) (ha : a < 55296) (hb : b < 55296) :
    Char.ofNat a < Char.ofNat b ↔ a < b := by
  rw [Char.lt_def, UInt32.lt_def]
  have hva : a.isValidChar := Or.inl ha
  have hvb : b.isValidChar := Or.inl hb
  simp only [Char.ofNat, hva, hvb, dif_pos, Char.ofNatAux, UInt32.ofNat', BitVec.lt_def,
    BitVec.toNat_ofNatLt]

theorem getD_true_lt_length (l : List Bool) (g : Nat) (h : l.getD g false = true) :
    g < l.length := by
  by_contra hc
  simp [List.getD_eq_getElem?_getD, List.getElem?_eq_none (by omega : l.length ≤ g)] at h

theorem getD_set_true (l : List Bool) (p g : Nat) :
    (l.set p true).getD g false = true ↔
      (p = g ∧ g < l.length) ∨ l.getD g false = true := by
  simp only [List.getD_eq_getElem?_getD, List.getElem?_set]
  by_cases hpg : p = g
  · subst hpg
    by_cases hl : p < l.length
    · simp [hl]
    · have hnone : l[p]?.getD false = false := by
        rw [List.getElem?_eq_none (by omega)]
        rfl
      simp [hl, hnone]
  · simp [hpg]

theorem setValidBits_length (a2g : List Nat) (mask : List Bool) :
    ∀ (i : Nat) (acc : List Bool), (setValidBits a2g i mask acc).length = acc.length := by
  induction mask with
  | nil => intro i acc; rfl
  | cons b rest ih =>
    intro i acc
    rw [setValidBits, ih]
    by_cases hb : b <;> simp [hb]

theorem setValidBits_getD (a2g : List Nat) (mask : List Bool) :
    ∀ (i : Nat) (acc : List Bool) (g : Nat),
      ((setValidBits a2g i mask acc).getD g false = true ↔
        acc.getD g false = true ∨
          ∃ j, j < mask.length ∧ mask.getD j false = true ∧
            a2g.getD (i + j) 0 = g ∧ g < acc.length) := by
  induction mask with
  | nil => intro i acc g; simp [setValidBits]
  | cons b rest ih =>
    intro i acc g
    rw [setValidBits, ih]
    have hlen : (if b then acc.set (a2g.getD i 0) true else acc).length = acc.length := by
      by_cases hb : b <;> simp [hb]
    rw [hlen]
    constructor
    · rintro (hacc | ⟨j, hj, hmj, haj, hg⟩)
      · by_cases hb : b
        · simp only [hb, if_true] at hacc
          rcases (getD_set_true acc (a2g.getD i 0) g).mp hacc with ⟨hpg, hgl⟩ | hacc'
          · exact Or.inr ⟨0, by simp, by simp [hb], by simpa using hpg, hgl⟩
          · exact Or.inl hacc'
        · simp only [hb, if_false] at hacc
          exact Or.inl hacc
      · exact Or.inr ⟨j + 1, by simpa using hj, by simpa using hmj,
          by rw [show i + (j + 1) = i + 1 + j by omega]; exact haj, hg⟩
    · rintro (hacc | ⟨j, hj, hmj, haj, hg⟩)
      · refine Or.inl ?_
        by_cases hb : b
        · simp only [hb, if_true]
          exact (getD_set_true acc (a2g.getD i 0) g).mpr (Or.inr hacc)
        · simpa [hb] using hacc
      · rcases j with _ | j'
        · have hbtrue : b = true := by simpa using hmj
          refine Or.inl ?_
          simp only [hbtrue, if_true]
          exact (getD_set_true acc (a2g.getD i 0) g).mpr
            (Or.inl ⟨by simpa using haj, hg⟩)
        · exact Or.inr ⟨j', by simpa using hj, by simpa using hmj,
            by rw [show i + 1 + j' = i + (j' + 1) by omega]; exact haj, hg⟩

theorem getGalilIndexValid_getD (a2g : List Nat) (maxIdx : Nat) (mask : List Bool) (g : Nat) :
    (getGalilIndexValid a2g maxIdx mask).getD g false = true ↔
      ∃ j, j < mask.length ∧ mask.getD j false = true ∧ a2g.getD j 0 = g ∧ g < maxIdx := by
  rw [getGalilIndexValid, setValidBits_getD]
  simp

theorem getGalilIndexValid_length (a2g : List Nat) (maxIdx : Nat) (mask : List Bool) :
    (getGalilIndexValid a2g maxIdx mask).length = maxIdx := by
  rw [getGalilIndexValid, setValidBits_length]
  simp

theorem mem_getGalilAxes (valid : List Bool) :
    ∀ (s : Nat) (ch : Char),
      (ch ∈ getGalilAxes valid s ↔
        ∃ g, g < valid.length ∧ valid.getD g false = true ∧ ch = Char.ofNat (65 + s + g)) := by
  induction valid with
  | nil => intro s ch; simp [getGalilAxes]
  | cons b rest ih =>
    intro s ch
    rw [getGalilAxes]
    constructor
    · intro hmem
      rcases List.mem_append.mp hmem with hhead | htail
      · have hb : b = true := by
          by_contra hb
          simp [hb] at hhead
        simp only [hb, if_true, List.mem_singleton] at hhead
        exact ⟨0, by simp, by simp [hb], by simpa using hhead⟩
      · rcases (ih (s + 1) ch).mp htail with ⟨g, hg, hvg, hch⟩
        exact ⟨g + 1, by simpa using hg, by simpa using hvg,
          by rw [show 65 + s + (g + 1) = 65 + (s + 1) + g by omega]; exact hch⟩
    · rintro ⟨g, hg, hvg, hch⟩
      rcases g with _ | g'
      · have hb : b = true := by simpa using hvg
        subst hch
        simp [hb]
      · refine List.mem_append.mpr (Or.inr ?_)
        refine (ih (s + 1) ch).mpr ⟨g', by simpa using hg, by simpa using hvg, ?_⟩
        rw [show 65 + (s + 1) + g' = 65 + s + (g' + 1) by omega]
        exact hch

theorem chain_getGalilAxes (valid : List Bool) :
    ∀ s : Nat, s + valid.length ≤ 128 →
      List.Chain' (· < ·) (getGalilAxes valid s) := by
  induction valid with
  | nil => intro s _; simp [getGalilAxes]
  | cons b rest ih =>
    intro s hs
    rw [getGalilAxes]
    by_cases hb : b
    · simp only [hb, if_true, List.singleton_append]
      rw [List.chain'_cons']
      refine ⟨fun y hy => ?_, ih (s + 1) (by simp at hs ⊢; omega)⟩
      have hymem := List.mem_of_mem_head? hy
      rcases (mem_getGalilAxes rest (s + 1) y).mp hymem with ⟨g, hg, -, hych⟩
      subst hych
      rw [charLt_ofNat] <;> simp at hs <;> omega
    · simp only [hb, if_false, List.nil_append]
      exact ih (s + 1) (by simp at hs ⊢; omega)

/-- C7: for any sparse subset of logical axes, in any logical order,
`GetGalilAxes (GetGalilIndexValid mask)` yields the channel letters in
strictly ascending physical-channel order, containing exactly the letters
of the physical channels mapped from the subset. -/
theorem galil_letters_spec (a2g : List Nat) (maxIdx : Nat) (mask : List Bool)
    (hmax : maxIdx ≤ 8)
    (hbound : ∀ i, i < mask.length → mask.getD i false = true → a2g.getD i 0 < maxIdx) :
    List.Chain' (· < ·) (getGalilAxes (getGalilIndexValid a2g maxIdx mask) 0) ∧
    ∀ ch : Char, ch ∈ getGalilAxes (getGalilIndexValid a2g maxIdx mask) 0 ↔
      ∃ i, i < mask.length ∧ mask.getD i false = true ∧
        ch = Char.ofNat (65 + a2g.getD i 0) := by
  constructor
  · exact chain_getGalilAxes _ 0 (by rw [getGalilIndexValid_length]; omega)
  · intro ch
    rw [mem_getGalilAxes]
    constructor
    · rintro ⟨g, -, hvg, hch⟩
      rcases (getGalilIndexValid_getD a2g maxIdx mask g).mp hvg with ⟨j, hj, hmj, haj, -⟩
      exact ⟨j, hj, hmj, by rw [← haj] at hch; simpa using hch⟩
    · rintro ⟨i, hi, hmi, hch⟩
      refine ⟨a2g.getD i 0, ?_, ?_, by simpa using hch⟩
      · rw [getGalilIndexValid_length]
        exact hbound i hi hmi
      · exact (getGalilIndexValid_getD a2g maxIdx mask _).mpr
          ⟨i, hi, hmi, rfl, hbound i hi hmi⟩

/-- C7 witness: logical axes mapped to physical channels [2, 0] with both
axes selected: the letters come out as "AC" — ascending physical order,
exactly the mapped channels. -/
theorem galil_letters_spec_witness :
    List.Chain' (· < ·) (getGalilAxes (getGalilIndexValid [2, 0] 3 [true, true]) 0) ∧
    'C' ∈ getGalilAxes (getGalilIndexValid [2, 0] 3 [true, true]) 0 := by
  have h := galil_letters_spec [2, 0] 3 [true, true] (by norm_num)
    (by intro i hi _; simp at hi; interval_cases i <;> decide)
  refine ⟨h.1, (h.2 'C').mpr ⟨0, by simp, by simp, by decide⟩⟩

/-! ### Controller state (mtsGalilController member variables)

The controller record collects the member variables manipulated by
`Configure`, `Startup`, `Run` and the command methods.  Published mirrors
of other fields (`mActuatorState.Position`, `InMotion`, limit-hit bits,
estop, timestamps) are pure per-tick copies of fields already present and
are omitted. -/

/-- The `GALIL_STATES` state machine of the homing sequencer. -/
inductive MachineState where
  | idle
  | homing
deriving DecidableEq, Repr

/-- `prmOperatingState::StateType` (the values used by this component). -/
inductive OpStateType where
  | enabled
  | disabled
  | fault
deriving DecidableEq, Repr

/-- The published `m_op_state` slice: state, busy flag, homed flag. -/
structure OpState where
  state : OpStateType
  isBusy : Bool
  isHomed : Bool
deriving DecidableEq, Repr

/-- The mutable controller state. -/
structure Controller where
  model : Nat
  numAxes : Nat
  axisToGalilIndexMap : List Nat
  galilIndexToAxisMap : List Nat
  galilIndexValid : List Bool
  galilIndexMax : Nat
  galilAxes : List Char
  encoderCountsPerUnit : List Rat
  encoderOffset : List Int
  encoderAbsolute : List Bool
  homePos : List Rat
  posLimitLower : List Rat
  posLimitUpper : List Rat
  homeLimitDisable : List Int
  limitDisable : List Int
  homingMask : List Bool
  homeCustom : Bool
  motorPowerOn : Bool
  motionActive : Bool
  machineState : MachineState
  timeout : Nat
  opState : OpState
  actuatorIsHomed : List Bool
  axisStatus : List Nat
  stopCode : List Nat
  stopCodeChange : List Bool
  switches : List Nat
  analogIn : List Nat
  measuredPos : List Rat
  measuredVel : List Rat
  setpointPos : List Rat
  setpointEffort : List Rat
  speed : List Rat
  accel : List Rat
  decel : List Rat
deriving DecidableEq, Repr

/-- The result of one externally invoked method: new controller state,
the ASCII command strings sent to the hardware (in order), and the
operator messages emitted. -/
abbrev CmdResult := Controller × List String × List String

/-- `std::round`, which rounds half away from zero (used for all
unit-to-count conversions). -/
def cround (q : Rat) : Int := if q < 0 then -⌊-q + 1 / 2⌋ else ⌊q + 1 / 2⌋

/-- The `galilData` array of `galil_cmd_common`: entry `g` receives
`vals[i]` for the (last) logical axis `i` mapped to channel `g`. -/
def galilDataOf (a2g : List Nat) (vals : List Int) (g : Nat) : Int :=
  (List.range vals.length).foldl
    (fun acc i => if a2g.getD i 0 = g then vals.getD i 0 else acc) 0

/-- `galil_cmd_common` (vctDoubleVec overload): convert the per-axis data
into encoder counts (times scale, rounded, plus offset when requested),
spread it over physical channels, and render it with `WriteCmdValues`.
Fails (returning `none`) when the vector size does not match the number of
configured axes. -/
def galilCmdCommonD (c : Controller) (cmdGalil : String) (data : List Rat)
    (useOffset : Bool) : Option String :=
  if data.length ≠ c.numAxes then none
  else
    let vals := (List.range c.numAxes).map (fun i =>
      let v := cround (data.getD i 0 * c.encoderCountsPerUnit.getD i 0)
      if useOffset then v + c.encoderOffset.getD i 0 else v)
    some (writeCmdValuesStr cmdGalil (galilDataOf c.axisToGalilIndexMap vals)
      (fun g => c.galilIndexValid.getD g false) c.galilIndexMax)

/-- `galil_cmd_common` (vctIntVec overload): as above, without unit
conversion. -/
def galilCmdCommonI (c : Controller) (cmdGalil : String) (data : List Int) :
    Option String :=
  if data.length ≠ c.numAxes then none
  else
    some (writeCmdValuesStr cmdGalil (galilDataOf c.axisToGalilIndexMap data)
      (fun g => c.galilIndexValid.getD g false) c.galilIndexMax)

/-- `SetSpeed`: send `SP` and remember the speed on success. -/
def setSpeed (c : Controller) (spd : List Rat) : CmdResult :=
  match galilCmdCommonD c "SP " spd false with
  | some cmd => ({ c with speed := spd }, [cmd], [])
  | none => (c, [], ["SetSpeed: size mismatch"])

/-- `SetAccel`: send `AC` and remember the acceleration on success. -/
def setAccel (c : Controller) (acc : List Rat) : CmdResult :=
  match galilCmdCommonD c "AC " acc false with
  | some cmd => ({ c with accel := acc }, [cmd], [])
  | none => (c, [], ["SetAccel: size mismatch"])

/-- `SetDecel`: send `DC` and remember the deceleration on success. -/
def setDecel (c : Controller) (dec : List Rat) : CmdResult :=
  match galilCmdCommonD c "DC " dec false with
  | some cmd => ({ c with decel := dec }, [cmd], [])
  | none => (c, [], ["SetDecel: size mismatch"])

/-- `servo_jp`: absolute position move; rejected when motor power is off. -/
def servo_jp (c : Controller) (goal : List Rat) : CmdResult :=
  if !c.motorPowerOn then (c, [], ["servo_jp: motor power is off"])
  else
    let stCmds := if c.motionActive then [writeCmdAxes "ST " c.galilAxes] else []
    match galilCmdCommonD c "PA " goal true with
    | some cmd => (c, stCmds ++ [cmd, writeCmdAxes "BG " c.galilAxes], [])
    | none => (c, stCmds, ["servo_jp: size mismatch"])

/-- `servo_jr`: relative position move; rejected when motor power is off. -/
def servo_jr (c : Controller) (goal : List Rat) : CmdResult :=
  if !c.motorPowerOn then (c, [], ["servo_jr: motor power is off"])
  else
    let stCmds := if c.motionActive then [writeCmdAxes "ST " c.galilAxes] else []
    match galilCmdCommonD c "PR " goal false with
    | some cmd => (c, stCmds ++ [cmd, writeCmdAxes "BG " c.galilAxes], [])
    | none => (c, stCmds, ["servo_jr: size mismatch"])

/-- `servo_jv`: velocity move; rejected when motor power is off. -/
def servo_jv (c : Controller) (goal : List Rat) : CmdResult :=
  if !c.motorPowerOn then (c, [], ["servo_jv: motor power is off"])
  else
    match galilCmdCommonD c "JG " goal false with
    | some cmd => (c, [cmd, writeCmdAxes "BG " c.galilAxes], [])
    | none => (c, [], ["servo_jv: size mismatch"])

/-- `hold`: stop all axes; rejected when motor power is off. -/
def hold (c : Controller) : CmdResult :=
  if !c.motorPowerOn then (c, [], ["hold: motor power is off"])
  else
    let (c1, spCmds, spMsgs) := setSpeed c c.speed
    (c1, writeCmdAxes "ST " c.galilAxes :: spCmds, spMsgs)

/-- `EnableMotorPower`: send `SH` for all axes and re-arm the mixed-power
guard counter. -/
def enableMotorPower (c : Controller) : CmdResult :=
  ({ c with timeout := 20 }, [writeCmdAxes "SH " c.galilAxes], [])

/-- `DisableMotorPower`: stop motion when active, then send `MO` for all
axes and re-arm the mixed-power guard counter. -/
def disableMotorPower (c : Controller) : CmdResult :=
  let (c1, stopCmds, stopMsgs) :=
    if c.motionActive then
      let (c', spCmds, spMsgs) := setSpeed c c.speed
      (c', [writeCmdAxes "ST " c.galilAxes, writeCmdAxes "AM " c.galilAxes] ++ spCmds, spMsgs)
    else (c, [], [])
  ({ c1 with timeout := 20 }, stopCmds ++ [writeCmdAxes "MO " c1.galilAxes], stopMsgs)

/-! ### Homing requests (mtsGalilController.cpp lines 1186-1298) -/

/-- `CheckHomingMask`: validate a request mask.  Returns the resulting
`mHomingMask` (written only when the size matches and the state machine is
not homing), the acceptance flag, and messages.  A request while homing is
rejected before the mask is written; an accepted mask keeps only the
requested axes that do not use absolute encoders; a mask that filters to
all-false rejects the whole request. -/
def checkHomingMask (c : Controller) (cmdName : String) (inMask : List Bool) :
    List Bool × Bool × List String :=
  if inMask.length ≠ c.homingMask.length then
    (c.homingMask, false, [cmdName ++ ": size mismatch"])
  else if c.machineState = MachineState.homing then
    (c.homingMask, false, [cmdName ++ " ignored because robot is homing"])
  else
    let out := List.zipWith (fun m a => m && !a) inMask c.encoderAbsolute
    if out.any id then (out, true, [])
    else (out, false, [cmdName ++ ": no valid axes"])

/-- `UnHome`: clear the persisted homed flag.  On controllers with the ZA
user-data register, write 0 to it for the requested axes. -/
def unHome (c : Controller) (mask : List Bool) : CmdResult :=
  let r := checkHomingMask c "UnHome" mask
  let c1 := { c with homingMask := r.1 }
  if !r.2.1 then (c1, [], r.2.2)
  else
    let cmds :=
      if HasUserDataZA c1.model then
        let valid := getGalilIndexValid c1.axisToGalilIndexMap c1.galilIndexMax c1.homingMask
        [writeCmdValuesStr "ZA " (fun _ => 0) (fun g => valid.getD g false) c1.galilIndexMax]
      else []
    ({ c1 with opState := { c1.opState with isHomed := false } }, cmds, r.2.2)

/-- The final homing commands of `Home`: the custom find-edge sequence
(`FE` then `BG`) when `mHomeCustom` is set, the native sequence
(`HM` then `BG`) otherwise; the state machine enters `Homing`. -/
def finishHome (c : Controller) (axes : List Char) (cmds msgs : List String) : CmdResult :=
  if c.homeCustom then
    ({ c with machineState := MachineState.homing },
      cmds ++ [writeCmdAxes "FE " axes, writeCmdAxes "BG " axes],
      msgs ++ ["starting home (FE)"])
  else
    ({ c with machineState := MachineState.homing },
      cmds ++ [writeCmdAxes "HM " axes, writeCmdAxes "BG " axes],
      msgs ++ ["starting home (HM)"])

/-- `Home`: validate the mask, require motor power, then unhome the
requested axes, stop them if motion is active, write the limit-disable
register when supported and needed, and issue the native or custom homing
sequence. -/
def home (c : Controller) (mask : List Bool) : CmdResult :=
  let r := checkHomingMask c "Home" mask
  let c1 := { c with homingMask := r.1 }
  if !r.2.1 then (c1, [], r.2.2)
  else if !c1.motorPowerOn then (c1, [], ["Home: motor power is off"])
  else
    let valid := getGalilIndexValid c1.axisToGalilIndexMap c1.galilIndexMax c1.homingMask
    let axes := getGalilAxes valid 0
    let u := unHome c1 c1.homingMask
    let c2 := u.1
    let stCmds := if c2.motionActive then [writeCmdAxes "ST " axes] else []
    if HasLimitDisable c2.model ∧ c2.homeLimitDisable.any (· ≠ 0) ∧
        c2.homeLimitDisable ≠ c2.limitDisable then
      match galilCmdCommonI c2 "LD " c2.homeLimitDisable with
      | none => (c2, u.2.1 ++ stCmds, u.2.2 ++ ["Home: failed to disable limits"])
      | some ldCmd => finishHome c2 axes (u.2.1 ++ stCmds ++ [ldCmd]) u.2.2
    else finishHome c2 axes (u.2.1 ++ stCmds) u.2.2

/-- `FindEdge`: validate the mask, require motor power, stop active motion,
then issue `FE` + `BG` for the requested axes. -/
def findEdge (c : Controller) (mask : List Bool) : CmdResult :=
  let r := checkHomingMask c "FindEdge" mask
  let c1 := { c with homingMask := r.1 }
  if !r.2.1 then (c1, [], r.2.2)
  else if !c1.motorPowerOn then (c1, [], ["FindEdge: motor power is off"])
  else
    let valid := getGalilIndexValid c1.axisToGalilIndexMap c1.galilIndexMax c1.homingMask
    let axes := getGalilAxes valid 0
    (c1, (if c1.motionActive then [writeCmdAxes "ST " axes] else []) ++
      [writeCmdAxes "FE " axes, writeCmdAxes "BG " axes], [])

/-- `FindIndex`: validate the mask, require motor power, stop active
motion, then issue `FI` + `BG` for the requested axes. -/
def findIndex (c : Controller) (mask : List Bool) : CmdResult :=
  let r := checkHomingMask c "FindIndex" mask
  let c1 := { c with homingMask := r.1 }
  if !r.2.1 then (c1, [], r.2.2)
  else if !c1.motorPowerOn then (c1, [], ["FindIndex: motor power is off"])
  else
    let valid := getGalilIndexValid c1.axisToGalilIndexMap c1.galilIndexMax c1.homingMask
    let axes := getGalilAxes valid 0
    (c1, (if c1.motionActive then [writeCmdAxes "ST " axes] else []) ++
      [writeCmdAxes "FI " axes, writeCmdAxes "BG " axes], [])

/-! ### Configuration (mtsGalilController.cpp lines 292-474) -/

/-- One logical axis of the configuration file (`robot_axis`). -/
structure RobotAxis where
  index : Nat
  lower : Rat
  upper : Rat
  scale : Rat
  offset : Int
  isAbsolute : Bool
  homePos : Rat
deriving DecidableEq, Repr

/-- The axis loop of `Configure` (lines 405-429): mark the channel valid,
record the logical-to-physical and physical-to-logical maps, and track the
largest used channel.  There is no duplicate-channel check; a duplicate
simply overwrites the physical-to-logical entry. -/
def buildMaps : List RobotAxis → Nat → List Bool × List Nat × List Nat × Nat →
    List Bool × List Nat × List Nat × Nat
  | [], _, st => st
  | a :: rest, axis, (valid, a2g, g2a, gmax) =>
    buildMaps rest (axis + 1)
      (valid.set a.index true, a2g ++ [a.index], g2a.set a.index axis,
        if a.index > gmax then a.index else gmax)

/-- Per-axis limit-disable bits derived from the configured home position
(lines 424-428): bit 2 when the home position is at or below the lower
travel limit, bit 1 when at or above the upper limit. -/
def homeLimitBits (a : RobotAxis) : Int :=
  if a.homePos ≤ a.lower then 2 else if a.upper ≤ a.homePos then 1 else 0

/-- `Configure`: fatal only when no robot is configured; builds the axis
maps and initializes the controller state.  Speed/accel/decel defaults are
25 mm/s and 256 mm/s² (lines 448-450). -/
def configure (model : Nat) (robots : List (List RobotAxis)) : Option Controller :=
  if robots.length < 1 then none
  else
    let axes := robots.headD []
    let numAxes := axes.length
    let bm := buildMaps axes 0 (List.replicate 8 false, [], List.replicate 8 numAxes, 0)
    let gmax := bm.2.2.2 + 1
    some { model := model, numAxes := numAxes, axisToGalilIndexMap := bm.2.1,
           galilIndexToAxisMap := bm.2.2.1, galilIndexValid := bm.1, galilIndexMax := gmax,
           galilAxes := getGalilAxes (bm.1.take gmax) 0,
           encoderCountsPerUnit := axes.map (·.scale),
           encoderOffset := axes.map (·.offset),
           encoderAbsolute := axes.map (·.isAbsolute),
           homePos := axes.map (·.homePos),
           posLimitLower := axes.map (·.lower),
           posLimitUpper := axes.map (·.upper),
           homeLimitDisable := axes.map homeLimitBits,
           limitDisable := List.replicate numAxes 0,
           homingMask := List.replicate numAxes false,
           homeCustom := false,
           motorPowerOn := false, motionActive := false,
           machineState := MachineState.idle, timeout := 0,
           opState := { state := OpStateType.disabled, isBusy := false,
                        isHomed := axes.all (·.isAbsolute) },
           actuatorIsHomed := axes.map (·.isAbsolute),
           axisStatus := List.replicate numAxes 0,
           stopCode := List.replicate numAxes 0,
           stopCodeChange := List.replicate numAxes false,
           switches := List.replicate numAxes 0,
           analogIn := List.replicate numAxes 0,
           measuredPos := List.replicate numAxes 0,
           measuredVel := List.replicate numAxes 0,
           setpointPos := List.replicate numAxes 0,
           setpointEffort := List.replicate numAxes 0,
           speed := List.replicate numAxes (1 / 40),
           accel := List.replicate numAxes (32 / 125),
           decel := List.replicate numAxes (32 / 125) }

/-- The limit-disable part of `Startup` (lines 621-635): on models with the
LD command, read the current limit-disable register (`queriedLD`) and merge
it into the per-axis home limit-disable bits; then derive `mHomeCustom`:
custom homing is needed exactly when the model lacks LD and some axis homes
at a limit. -/
def startupHomeConfig (c : Controller) (queriedLD : List Int) : Controller :=
  if HasLimitDisable c.model then
    let hld := List.zipWith (fun h l => Int.lor h l) c.homeLimitDisable queriedLD
    { c with limitDisable := queriedLD, homeLimitDisable := hld,
             homeCustom := !HasLimitDisable c.model && hld.any (· ≠ 0) }
  else
    { c with limitDisable := List.replicate c.numAxes 0,
             homeCustom := !HasLimitDisable c.model && c.homeLimitDisable.any (· ≠ 0) }

/-! ### The periodic Run method (mtsGalilController.cpp lines 646-896) -/

/-- `Run`'s per-axis aggregate accumulation (lines 668-702): fold over the
per-axis status words, OR-ing the moving bit (0x8000) into `anyMoving` and
AND-ing the motor-off bit (0x0001) into `allMotorOn` (negated) and
`allMotorOff`. -/
def aggLoop : List Nat → Bool → Bool → Bool → Bool × Bool × Bool
  | [], m, onAll, offAll => (m, onAll, offAll)
  | s :: rest, m, onAll, offAll =>
    aggLoop rest (if s.testBit 15 then true else m)
      (if s.testBit 0 then false else onAll)
      (if s.testBit 0 then offAll else false)

/-- The mixed-power guard (line 747): once the decremented guard counter
reaches zero, an observed mix of powered and unpowered motors forces a full
power-off. -/
def mixedPowerForce (allOn allOff : Bool) (t : Nat) : Bool :=
  !allOn && !allOff && decide (t = 0)

/-- The operating-state publication step (lines 756-757 and 797-806):
`m_op_state.SetIsBusy(mMotionActive)` is executed first; the
event then fires when the new state, busy flag or homed flag differs from
the value stored in `m_op_state` at comparison time. -/
def opStateUpdate (prev : OpState) (newState : OpStateType) (motionActive isAllHomed : Bool) :
    OpState × Bool :=
  let s1 : OpState := { prev with isBusy := motionActive }
  if newState ≠ s1.state ∨ motionActive ≠ s1.isBusy ∨ isAllHomed ≠ s1.isHomed then
    ({ state := newState, isBusy := motionActive, isHomed := isAllHomed }, true)
  else (s1, false)

/-- The per-axis state update of a successfully decoded record
(lines 671-739). -/
def frameUpdate (c : Controller) (rec : List AxisSample) : Controller :=
  let n := c.numAxes
  let sa := fun i => rec.getD i default
  { c with
    measuredPos := (List.range n).map (fun i =>
      (((sa i).pos : Rat) - (c.encoderOffset.getD i 0 : Int)) / c.encoderCountsPerUnit.getD i 0),
    measuredVel := (List.range n).map (fun i =>
      ((sa i).vel : Rat) / c.encoderCountsPerUnit.getD i 0),
    setpointPos := (List.range n).map (fun i =>
      (((sa i).ref_pos : Rat) - (c.encoderOffset.getD i 0 : Int)) / c.encoderCountsPerUnit.getD i 0),
    setpointEffort := (List.range n).map (fun i =>
      ((sa i).torque : Rat) * (99982 / 10000) / 32767),
    axisStatus := (List.range n).map (fun i => (sa i).status),
    stopCodeChange := (List.range n).map (fun i => decide (c.stopCode.getD i 0 ≠ (sa i).stop_code)),
    stopCode := (List.range n).map (fun i => (sa i).stop_code),
    switches := (List.range n).map (fun i => (sa i).switches),
    analogIn := (List.range n).map (fun i => (sa i).analog_in),
    actuatorIsHomed := (List.range n).map (fun i =>
      if c.encoderAbsolute.getD i false then true
      else if AxisDataSize c.model = ADmax then decide ((sa i).var ≠ 0)
      else c.actuatorIsHomed.getD i false) }

/-- The frame-handling phase of `Run` (lines 653-796): on success, update
the per-axis state, compute the aggregates, decrement and apply the
mixed-power guard; on a record error, report a fault. -/
def framePhase (c : Controller) (recOpt : Option (List AxisSample)) :
    Controller × List String × List String × OpStateType :=
  match recOpt with
  | some rec =>
    let c1 := frameUpdate c rec
    let agg := aggLoop c1.axisStatus false true true
    let t1 := if 0 < c1.timeout then c1.timeout - 1 else c1.timeout
    let c2 := { c1 with timeout := t1 }
    if mixedPowerForce agg.2.1 agg.2.2 t1 then
      let d := disableMotorPower c2
      ({ d.1 with motionActive := agg.1, motorPowerOn := false },
        d.2.1, "inconsistent motor power (turning off)" :: d.2.2,
        OpStateType.disabled)
    else
      ({ c2 with motionActive := agg.1, motorPowerOn := agg.2.1 },
        [], [],
        if agg.2.1 then OpStateType.enabled else OpStateType.disabled)
  | none =>
    ({ c with motionActive := false, motorPowerOn := false },
      [], ["GRecord error"], OpStateType.fault)

/-- One axis of the `ST_HOMING` branch (lines 825-882). -/
def homingAxisStep (c : Controller) (i : Nat) : CmdResult :=
  if c.homingMask.getD i false then
    let sc := c.stopCode.getD i 0
    let chanStr := String.mk [Char.ofNat (65 + c.axisToGalilIndexMap.getD i 0)]
    if sc = SC_FindEdge ∨ (c.homeCustom ∧ (sc = SC_FwdLim ∨ sc = SC_RevLim)) then
      if c.stopCodeChange.getD i false then
        let msg := if sc = SC_FwdLim then "found forward limit on axis " ++ toString i
                   else if sc = SC_RevLim then "found reverse limit on axis " ++ toString i
                   else "found homing edge on axis " ++ toString i
        if c.homeCustom then
          (c, ["AM " ++ chanStr, "JG" ++ chanStr ++ "=-500",
               "FI " ++ chanStr, "BG " ++ chanStr], [msg])
        else (c, [], [msg])
      else (c, [], [])
    else if sc = SC_Homing then
      let hpos := cround (c.homePos.getD i 0 * c.encoderCountsPerUnit.getD i 0) +
        c.encoderOffset.getD i 0
      let c1 := { c with homingMask := c.homingMask.set i false,
                         actuatorIsHomed := c.actuatorIsHomed.set i true }
      let sp := setSpeed c1 c1.speed
      (sp.1, ["AM " ++ chanStr, "DP" ++ chanStr ++ "=" ++ toString hpos] ++ sp.2.1,
        sp.2.2 ++ ["finished homing on axis " ++ toString i])
    else if sc ≠ SC_Running then
      if c.stopCodeChange.getD i false then
        ({ c with homingMask := c.homingMask.set i false }, [],
          ["found stop code " ++ toString sc ++ " when homing axis " ++ toString i])
      else (c, [], [])
    else (c, [], [])
  else (c, [], [])

/-- The `ST_HOMING` loop over all configured axes. -/
def homingLoop : Controller → List Nat → CmdResult
  | c, [] => (c, [], [])
  | c, i :: rest =>
    let r := homingAxisStep c i
    let r' := homingLoop r.1 rest
    (r'.1, r.2.1 ++ r'.2.1, r.2.2 ++ r'.2.2)

/-- End of the `ST_HOMING` branch (lines 885-893): when no axis remains
pending, restore the limit-disable register (on capable models) and return
to `Idle`. -/
def homingFinish (c : Controller) : CmdResult :=
  if !(c.homingMask.any id) then
    let rest :=
      if HasLimitDisable c.model then
        match galilCmdCommonI c "LD " c.limitDisable with
        | some cmd => ([cmd], ([] : List String))
        | none => ([], ["Home: failed to restore limits"])
      else ([], [])
    ({ c with machineState := MachineState.idle }, rest.1,
      rest.2 ++ ["finished homing all axes"])
  else (c, [], [])

/-- The result of one `Run` tick. -/
structure TickResult where
  ctrl : Controller
  cmds : List String
  msgs : List String
  eventFired : Bool
deriving Repr

/-- One tick of `Run`: frame phase, operating-state publication, then the
homing state machine. -/
def runTick (c : Controller) (recOpt : Option (List AxisSample)) : TickResult :=
  let fr := framePhase c recOpt
  let c3 := fr.1
  let isAllHomed := c3.actuatorIsHomed.all id
  let ev := opStateUpdate c3.opState fr.2.2.2 c3.motionActive isAllHomed
  let c4 := { c3 with opState := ev.1 }
  match c4.machineState with
  | MachineState.idle => ⟨c4, fr.2.1, fr.2.2.1, ev.2⟩
  | MachineState.homing =>
    let hl := homingLoop c4 (List.range c4.numAxes)
    let hf := homingFinish hl.1
    ⟨hf.1, fr.2.1 ++ hl.2.1 ++ hf.2.1, fr.2.2.1 ++ hl.2.2 ++ hf.2.2, ev.2⟩

/-! ### Demonstration controllers for concrete instantiations -/

/-- A one-axis controller on a DMC 1802 (model index 4: no limit-disable,
no ZA), incremental encoder, home position at the lower travel limit
(so `mHomeLimitDisable = [2]` and `mHomeCustom = true` after startup),
idle, motor power off. -/
def demoBase : Controller :=
  { model := 4, numAxes := 1,
    axisToGalilIndexMap := [0],
    galilIndexToAxisMap := [0, 1, 1, 1, 1, 1, 1, 1],
    galilIndexValid := [true, false, false, false, false, false, false, false],
    galilIndexMax := 1, galilAxes := ['A'],
    encoderCountsPerUnit := [1], encoderOffset := [0], encoderAbsolute := [false],
    homePos := [0], posLimitLower := [0], posLimitUpper := [10],
    homeLimitDisable := [2], limitDisable := [0],
    homingMask := [false], homeCustom := true,
    motorPowerOn := false, motionActive := false,
    machineState := MachineState.idle, timeout := 0,
    opState := { state := OpStateType.disabled, isBusy := false, isHomed := false },
    actuatorIsHomed := [false], axisStatus := [0], stopCode := [0],
    stopCodeChange := [false], switches := [0], analogIn := [0],
    measuredPos := [0], measuredVel := [0], setpointPos := [0], setpointEffort := [0],
    speed := [1 / 40], accel := [32 / 125], decel := [32 / 125] }

/-- `demoBase` while the homing sequencer is active. -/
def demoHoming : Controller := { demoBase with machineState := MachineState.homing }

/-! ### Claim C3: Home while Homing is rejected, mask unchanged -/

/-- C3: every Home request received while the state machine is Homing is
rejected: a message is emitted, no motion commands are issued, and the
controller state — in particular the pending homing mask and the Homing
state — is left exactly as it was. -/
theorem home_rejected_while_homing (c : Controller) (mask : List Bool)
    (h : c.machineState = MachineState.homing) :
    (home c mask).1 = c ∧ (home c mask).2.1 = [] ∧ (home c mask).2.2 ≠ [] := by
  have h1 : (checkHomingMask c "Home" mask).1 = c.homingMask := by
    unfold checkHomingMask
    by_cases hs : mask.length ≠ c.homingMask.length <;> simp [hs, h]
  have h2 : (checkHomingMask c "Home" mask).2.1 = false := by
    unfold checkHomingMask
    by_cases hs : mask.length ≠ c.homingMask.length <;> simp [hs, h]
  have h3 : (checkHomingMask c "Home" mask).2.2 ≠ [] := by
    unfold checkHomingMask
    by_cases hs : mask.length ≠ c.homingMask.length <;> simp [hs, h]
  simp only [home, h1, h2, Bool.not_false, if_true]
  exact ⟨trivial, trivial, h3⟩

/-- C3 witness: a concrete homing controller rejecting `Home [true]`. -/
theorem home_rejected_while_homing_witness :
    (home demoHoming [true]).1 = demoHoming ∧ (home demoHoming [true]).2.1 = [] ∧
    (home demoHoming [true]).2.2 ≠ [] :=
  home_rejected_while_homing demoHoming [true] rfl

/-! ### Claim C8: per-tick power/motion aggregates -/

theorem aggLoop_eq (statuses : List Nat) :
    ∀ m onAll offAll,
      aggLoop statuses m onAll offAll =
        (m || statuses.any (fun s => s.testBit 15),
         onAll && statuses.all (fun s => !s.testBit 0),
         offAll && statuses.all (fun s => s.testBit 0)) := by
  induction statuses with
  | nil => intro m onAll offAll; simp [aggLoop]
  | cons s rest ih =>
    intro m onAll offAll
    rw [aggLoop, ih]
    by_cases hb : s.testBit 15 <;> by_cases ho : s.testBit 0 <;>
      simp [hb, ho, Bool.and_assoc, Bool.or_assoc, -Nat.testBit_zero]

/-- C8: on every tick with a successfully decoded frame, `anyMoving` is
the OR over axes of the moving status bit (0x8000), `allMotorOn` the AND
of the negated motor-off bit (0x0001) and `allMotorOff` the AND of the
motor-off bit; and whenever the decremented mixed-power guard counter is
still nonzero, a mixed reading does not force these flags. -/
theorem aggregates_spec (statuses : List Nat) (t : Nat) (ht : t ≠ 0) :
    aggLoop statuses false true true =
      (statuses.any (fun s => s.testBit 15),
       statuses.all (fun s => !s.testBit 0),
       statuses.all (fun s => s.testBit 0)) ∧
    mixedPowerForce (statuses.all (fun s => !s.testBit 0))
      (statuses.all (fun s => s.testBit 0)) t = false := by
  constructor
  · rw [aggLoop_eq]
    simp
  · simp [mixedPowerForce, ht]

/-- C8 witness: motor-off bits [true,false] (status words [1,0]) with the
guard counter nonzero: anyMoving is false, and both `allMotorOn` and
`allMotorOff` are false with no forced power-off. -/
theorem aggregates_spec_witness :
    aggLoop [1, 0] false true true = (false, false, false) ∧
    mixedPowerForce false false 1 = false := by
  have h := aggregates_spec [1, 0] 1 one_ne_zero
  constructor
  · rw [h.1]
    decide
  · have h2 := h.2
    rw [show ([1, 0].all (fun s => !s.testBit 0)) = false from by decide,
      show ([1, 0].all (fun s => s.testBit 0)) = false from by decide] at h2
    exact h2

/-! ### Claim C9: operating-state event edge-triggering -/

/-- C9 (code defect): the busy-flag disjunct of the event trigger is dead.
`m_op_state.SetIsBusy(mMotionActive)` (line 757) runs before the
comparison (line 799), so `mMotionActive != m_op_state.IsBusy()` can never
hold, and a tick where only the busy flag differs from the last published
value emits no event: last published (Disabled, busy=false, homed=true),
tick computing (Disabled, moving=true, homed=true) fires nothing, contrary
to the claimed if-and-only-if trigger. -/
theorem busy_change_no_event :
    opStateUpdate { state := OpStateType.disabled, isBusy := false, isHomed := true }
      OpStateType.disabled true true =
      ({ state := OpStateType.disabled, isBusy := true, isHomed := true }, false) := by
  decide

/-! ### Claim C4: power-off command rejection -/

/-- C4 counterexample: a Home request with motor power off is rejected
synchronously (error message, no command string sent), but the pending
homing mask is NOT left as it was: `CheckHomingMask` has already
overwritten `mHomingMask` with the filtered request before `Home` tests
`mMotorPowerOn`. -/
theorem home_power_off_mutates_mask :
    (home demoBase [true]).2.1 = [] ∧
    (home demoBase [true]).2.2 = ["Home: motor power is off"] ∧
    demoBase.homingMask = [false] ∧
    (home demoBase [true]).1.homingMask = [true] := by
  decide

/-- C4 (amended): `servo_jp`, `servo_jr` and `servo_jv` with motor power
off are rejected synchronously with an error message, send no command and
leave the controller state exactly unchanged.  A Home request with motor
power off is likewise rejected with an error message and sends no command,
and every state field except the pending homing mask is unchanged — but
the pending homing mask has already been overwritten by the guard check
before the power test. -/
theorem power_off_rejection_spec (c : Controller) (v : List Rat) (mask : List Bool)
    (h : c.motorPowerOn = false) :
    servo_jp c v = (c, [], ["servo_jp: motor power is off"]) ∧
    servo_jr c v = (c, [], ["servo_jr: motor power is off"]) ∧
    servo_jv c v = (c, [], ["servo_jv: motor power is off"]) ∧
    (home c mask).2.1 = [] ∧ (home c mask).2.2 ≠ [] ∧
    (home c mask).1 = { c with homingMask := (home c mask).1.homingMask } := by
  have hmsg : (checkHomingMask c "Home" mask).2.1 = false →
      (checkHomingMask c "Home" mask).2.2 ≠ [] := by
    simp only [checkHomingMask]
    split_ifs <;> simp
  refine ⟨by simp [servo_jp, h], by simp [servo_jr, h], by simp [servo_jv, h], ?_, ?_, ?_⟩ <;>
    rcases hok : (checkHomingMask c "Home" mask).2.1 with _ | _
  · simp [home, hok]
  · simp [home, hok, h]
  · simpa [home, hok] using hmsg hok
  · simp [home, hok, h]
  · simp [home, hok]
  · simp [home, hok, h]

/-- C4 witness: the amended statement at the concrete power-off
controller. -/
theorem power_off_rejection_spec_witness :
    servo_jp demoBase [1] = (demoBase, [], ["servo_jp: motor power is off"]) ∧
    servo_jr demoBase [1] = (demoBase, [], ["servo_jr: motor power is off"]) ∧
    servo_jv demoBase [1] = (demoBase, [], ["servo_jv: motor power is off"]) ∧
    (home demoBase [true]).2.1 = [] ∧ (home demoBase [true]).2.2 ≠ [] ∧
    (home demoBase [true]).1 =
      { demoBase with homingMask := (home demoBase [true]).1.homingMask } :=
  power_off_rejection_spec demoBase [1] [true] rfl

/-! ### Claim C5: duplicate channel assignment -/

/-- First logical axis of a duplicate-channel configuration. -/
def dupA : RobotAxis :=
  { index := 0, lower := 0, upper := 10, scale := 1, offset := 0,
    isAbsolute := false, homePos := 5 }

/-- Second logical axis, assigned the same physical channel 0. -/
def dupB : RobotAxis :=
  { index := 0, lower := 0, upper := 10, scale := 1, offset := 0,
    isAbsolute := false, homePos := 5 }

/-- C5 counterexample: two logical axes assigned the same physical channel
are NOT rejected: `Configure` completes, both logical axes map to channel
0, the physical-to-logical map silently keeps only the second axis, and
the all-axes letter string collapses to the single letter A. -/
theorem configure_accepts_duplicate_channels :
    (configure 0 [[dupA, dupB]]).isSome = true ∧
    (configure 0 [[dupA, dupB]]).map (fun c => c.axisToGalilIndexMap) = some [0, 0] ∧
    (configure 0 [[dupA, dupB]]).map (fun c => c.galilIndexToAxisMap.getD 0 99) = some 1 ∧
    (configure 0 [[dupA, dupB]]).map (fun c => c.galilAxes) = some ['A'] := by
  decide

/-- C5 (amended): duplicate channel assignment is accepted, never flagged:
for any two axes sharing physical channel `k`, `Configure` completes and
silently collapses the mapping — both logical axes map to `k`, the
physical-to-logical map retains the second axis, and the derived axis
letters contain `'A' + k` once. -/
theorem configure_duplicate_collapse (model k : Nat) (a b : RobotAxis)
    (ha : a.index = k) (hb : b.index = k) (hk : k < 8) :
    ∃ ctrl, configure model [[a, b]] = some ctrl ∧
      ctrl.axisToGalilIndexMap = [k, k] ∧
      ctrl.galilIndexToAxisMap.getD k 99 = 1 ∧
      ctrl.galilAxes = [Char.ofNat (65 + k)] := by
  refine ⟨_, rfl, ?_, ?_, ?_⟩ <;>
  · simp only [configure, buildMaps, List.length_cons, List.length_nil, List.headD]
    norm_num
    rw [ha, hb]
    interval_cases k <;> decide

/-- C5 witness: the amended statement at a concrete duplicate pair on
channel 2. -/
theorem configure_duplicate_collapse_witness :
    ∃ ctrl, configure 3 [[{ dupA with index := 2 }, { dupB with index := 2 }]] = some ctrl ∧
      ctrl.axisToGalilIndexMap = [2, 2] ∧
      ctrl.galilIndexToAxisMap.getD 2 99 = 1 ∧
      ctrl.galilAxes = [Char.ofNat (65 + 2)] :=
  configure_duplicate_collapse 3 2 { dupA with index := 2 } { dupB with index := 2 }
    rfl rfl (by norm_num)

/-! ### Claim C1: homing strategy selection -/

/-- The filtered request mask written by `CheckHomingMask`. -/
def requestFiltered (c : Controller) (mask : List Bool) : List Bool :=
  List.zipWith (fun m a => m && !a) mask c.encoderAbsolute

/-- The channel letters of the filtered request. -/
def requestAxes (c : Controller) (mask : List Bool) : List Char :=
  getGalilAxes (getGalilIndexValid c.axisToGalilIndexMap c.galilIndexMax
    (requestFiltered c mask)) 0

/-- Whether some configured axis has its home position at (or beyond) a
travel limit. -/
def homeAtLimitB (c : Controller) : Bool :=
  (List.range c.numAxes).any (fun i =>
    c.homePos.getD i 0 ≤ c.posLimitLower.getD i 0 ∨
    c.posLimitUpper.getD i 0 ≤ c.homePos.getD i 0)

theorem zipWith_filter_idem (m a : List Bool) :
    List.zipWith (fun x y => x && !y) (List.zipWith (fun x y => x && !y) m a) a =
      List.zipWith (fun x y => x && !y) m a := by
  induction m generalizing a with
  | nil => simp
  | cons x xs ih =>
    cases a with
    | nil => simp
    | cons y ys => simp [ih, Bool.and_assoc]

theorem getD_range_map {α : Type} (f : Nat → α) (n i : Nat) (hi : i < n) (d : α) :
    ((List.range n).map f).getD i d = f i := by
  rw [List.getD_eq_getElem?_getD, List.getElem?_map, List.getElem?_range hi]
  rfl

theorem any_ne_zero_iff (l : List Int) (n : Nat) (hl : l.length = n) :
    (l.any (· ≠ 0) = true) ↔ ∃ i, i < n ∧ l.getD i 0 ≠ 0 := by
  rw [List.any_eq_true]
  constructor
  · rintro ⟨x, hx, hxne⟩
    rcases List.mem_iff_getElem.mp hx with ⟨i, hi, rfl⟩
    refine ⟨i, by omega, ?_⟩
    rw [List.getD_eq_getElem?_getD, List.getElem?_eq_getElem hi]
    simpa using hxne
  · rintro ⟨i, hi, hne⟩
    have hi' : i < l.length := by omega
    refine ⟨l[i], List.getElem_mem hi', ?_⟩
    rw [List.getD_eq_getElem?_getD, List.getElem?_eq_getElem hi'] at hne
    simpa using hne

theorem homeAtLimitB_iff (c : Controller) :
    homeAtLimitB c = true ↔ ∃ i, i < c.numAxes ∧
      (c.homePos.getD i 0 ≤ c.posLimitLower.getD i 0 ∨
       c.posLimitUpper.getD i 0 ≤ c.homePos.getD i 0) := by
  rw [homeAtLimitB, List.any_eq_true]
  constructor
  · rintro ⟨i, hi, hp⟩
    exact ⟨i, List.mem_range.mp hi, by simpa using hp⟩
  · rintro ⟨i, hi, hp⟩
    exact ⟨i, List.mem_range.mpr hi, by simpa using hp⟩

theorem customNeeded_eq (c : Controller)
    (hhld : HasLimitDisable c.model = false → c.homeLimitDisable =
      (List.range c.numAxes).map (fun i =>
        if c.homePos.getD i 0 ≤ c.posLimitLower.getD i 0 then 2
        else if c.posLimitUpper.getD i 0 ≤ c.homePos.getD i 0 then 1 else 0)) :
    (!HasLimitDisable c.model && c.homeLimitDisable.any (· ≠ 0)) =
      (!HasLimitDisable c.model && homeAtLimitB c) := by
  by_cases hld : HasLimitDisable c.model
  · simp [hld]
  · have hld' : HasLimitDisable c.model = false := by simpa using hld
    rw [hhld hld']
    congr 1
    rw [Bool.eq_iff_iff, homeAtLimitB_iff,
      any_ne_zero_iff _ c.numAxes (by simp)]
    constructor
    · rintro ⟨i, hi, hne⟩
      rw [getD_range_map _ _ _ hi] at hne
      refine ⟨i, hi, ?_⟩
      revert hne
      split_ifs with hA hB
      · exact fun _ => Or.inl hA
      · exact fun _ => Or.inr hB
      · intro hne; exact absurd rfl hne
    · rintro ⟨i, hi, hp⟩
      refine ⟨i, hi, ?_⟩
      rw [getD_range_map _ _ _ hi]
      split_ifs with hA hB
      · norm_num
      · norm_num
      · rcases hp with hp | hp
        · exact absurd hp hA
        · exact absurd hp hB

/-- C1: main theorem. -/
theorem home_strategy_spec (c : Controller) (mask : List Bool)
    (hlen_mask : mask.length = c.homingMask.length)
    (hlen_hm : c.homingMask.length = c.numAxes)
    (hlen_abs : c.encoderAbsolute.length = c.numAxes)
    (hlen_hld : c.homeLimitDisable.length = c.numAxes)
    (hstate : c.machineState = MachineState.idle)
    (hpow : c.motorPowerOn = true)
    (haccept : (requestFiltered c mask).any id = true)
    (hcustom : c.homeCustom = (!HasLimitDisable c.model && c.homeLimitDisable.any (· ≠ 0)))
    (hhld : HasLimitDisable c.model = false → c.homeLimitDisable =
      (List.range c.numAxes).map (fun i =>
        if c.homePos.getD i 0 ≤ c.posLimitLower.getD i 0 then 2
        else if c.posLimitUpper.getD i 0 ≤ c.homePos.getD i 0 then 1 else 0)) :
    (home c mask).2.1 =
      (if HasUserDataZA c.model then
        [writeCmdValuesStr "ZA " (fun _ => 0)
          (fun g => (getGalilIndexValid c.axisToGalilIndexMap c.galilIndexMax
            (requestFiltered c mask)).getD g false) c.galilIndexMax]
       else []) ++
      (if c.motionActive then [writeCmdAxes "ST " (requestAxes c mask)] else []) ++
      (if HasLimitDisable c.model = true ∧ c.homeLimitDisable.any (· ≠ 0) = true ∧
          c.homeLimitDisable ≠ c.limitDisable then
        [writeCmdValuesStr "LD " (galilDataOf c.axisToGalilIndexMap c.homeLimitDisable)
          (fun g => c.galilIndexValid.getD g false) c.galilIndexMax]
       else []) ++
      (if (!HasLimitDisable c.model && homeAtLimitB c) = true then
        [writeCmdAxes "FE " (requestAxes c mask), writeCmdAxes "BG " (requestAxes c mask)]
       else
        [writeCmdAxes "HM " (requestAxes c mask), writeCmdAxes "BG " (requestAxes c mask)]) ∧
    ((!HasLimitDisable c.model && homeAtLimitB c) = true ↔
      HasLimitDisable c.model = false ∧ ∃ i, i < c.numAxes ∧
        (c.homePos.getD i 0 ≤ c.posLimitLower.getD i 0 ∨
         c.posLimitUpper.getD i 0 ≤ c.homePos.getD i 0)) ∧
    (home c mask).1.machineState = MachineState.homing ∧
    (home c mask).1.homingMask = requestFiltered c mask := by
  have hacc : (List.zipWith (fun m a => m && !a) mask c.encoderAbsolute).any id = true := by
    simpa only [requestFiltered] using haccept
  have hcheck : checkHomingMask c "Home" mask = (requestFiltered c mask, true, []) := by
    simp only [checkHomingMask, requestFiltered]
    rw [if_neg (by omega : ¬ mask.length ≠ c.homingMask.length), if_neg (by simp [hstate]),
      if_pos hacc]
  have hidem : List.zipWith (fun m a => m && !a) (requestFiltered c mask) c.encoderAbsolute =
      requestFiltered c mask := zipWith_filter_idem mask c.encoderAbsolute
  have hcheck2 : checkHomingMask { c with homingMask := requestFiltered c mask } "UnHome"
      (requestFiltered c mask) = (requestFiltered c mask, true, []) := by
    simp only [checkHomingMask]
    rw [if_neg (by simp), if_neg (by simp [hstate])]
    simp only [requestFiltered] at hidem ⊢
    rw [hidem, if_pos hacc]
  have hunhome : unHome { c with homingMask := requestFiltered c mask }
      (requestFiltered c mask) =
      ({ c with homingMask := requestFiltered c mask,
                opState := { c.opState with isHomed := false } },
       (if HasUserDataZA c.model then
         [writeCmdValuesStr "ZA " (fun _ => 0)
           (fun g => (getGalilIndexValid c.axisToGalilIndexMap c.galilIndexMax
             (requestFiltered c mask)).getD g false) c.galilIndexMax]
        else []), []) := by
    simp only [unHome, hcheck2]
    simp
  have hldcmd : galilCmdCommonI
      { c with homingMask := requestFiltered c mask,
               opState := { c.opState with isHomed := false } } "LD " c.homeLimitDisable =
      some (writeCmdValuesStr "LD " (galilDataOf c.axisToGalilIndexMap c.homeLimitDisable)
        (fun g => c.galilIndexValid.getD g false) c.galilIndexMax) := by
    simp only [galilCmdCommonI]
    rw [if_neg (by simp [hlen_hld])]
  have hcu : c.homeCustom = (!HasLimitDisable c.model && homeAtLimitB c) := by
    rw [hcustom]
    exact customNeeded_eq c hhld
  have hstep : home c mask =
      finishHome { c with homingMask := requestFiltered c mask,
                          opState := { c.opState with isHomed := false } }
        (requestAxes c mask)
        ((if HasUserDataZA c.model then
           [writeCmdValuesStr "ZA " (fun _ => 0)
             (fun g => (getGalilIndexValid c.axisToGalilIndexMap c.galilIndexMax
               (requestFiltered c mask)).getD g false) c.galilIndexMax]
          else []) ++
         (if c.motionActive then [writeCmdAxes "ST " (requestAxes c mask)] else []) ++
         (if HasLimitDisable c.model = true ∧ c.homeLimitDisable.any (· ≠ 0) = true ∧
             c.homeLimitDisable ≠ c.limitDisable then
           [writeCmdValuesStr "LD " (galilDataOf c.axisToGalilIndexMap c.homeLimitDisable)
             (fun g => c.galilIndexValid.getD g false) c.galilIndexMax]
          else [])) [] := by
    have hcond : (!c.motorPowerOn) = false := by rw [hpow]; rfl
    have haxes : getGalilAxes (getGalilIndexValid c.axisToGalilIndexMap c.galilIndexMax
        (requestFiltered c mask)) 0 = requestAxes c mask := rfl
    simp [home, hcheck, hunhome, hldcmd, hcond, haxes]
    split_ifs <;> simp [List.append_assoc]
  refine ⟨?_, ?_, ?_, ?_⟩
  · rw [hstep]
    by_cases hcb : c.homeCustom = true
    · have hcb2 : (!HasLimitDisable c.model && homeAtLimitB c) = true := by
        rw [← hcu]; exact hcb
      simp [finishHome, hcb, hcb2, List.append_assoc]
    · have hcb2 : (!HasLimitDisable c.model && homeAtLimitB c) ≠ true := by
        rw [← hcu]; exact hcb
      simp [finishHome, hcb, hcb2, List.append_assoc]
  · rw [Bool.and_eq_true, homeAtLimitB_iff]
    constructor
    · rintro ⟨h1, h2⟩
      exact ⟨by simpa using h1, h2⟩
    · rintro ⟨h1, h2⟩
      exact ⟨by simp [h1], h2⟩
  · rw [hstep]
    by_cases hcb : c.homeCustom = true <;> simp [finishHome, hcb]
  · rw [hstep]
    by_cases hcb : c.homeCustom = true <;> simp [finishHome, hcb]


/-- C1 witness: the custom path on a concrete DMC 1802 controller (no
limit-disable) with the single axis homing at its lower travel limit. -/
theorem home_strategy_spec_witness :
    (home { demoBase with motorPowerOn := true } [true]).2.1 = ["FE A", "BG A"] ∧
    (home { demoBase with motorPowerOn := true } [true]).1.machineState =
      MachineState.homing := by
  have h := home_strategy_spec { demoBase with motorPowerOn := true } [true]
    (by decide) (by decide) (by decide) (by decide) (by decide) (by decide) (by decide)
    (by decide) (by decide)
  refine ⟨?_, h.2.2.1⟩
  rw [h.1]
  decide

/-! ### Claim C10: the pending mask never contains an absolute-encoder axis -/

/-- The invariant: no axis with an absolute encoder is pending in the
homing mask. -/
def MaskInv (c : Controller) : Prop :=
  ∀ i, c.encoderAbsolute.getD i false = true → c.homingMask.getD i false = false

theorem zipWith_filter_getD (mask abs : List Bool) (i : Nat)
    (h : abs.getD i false = true) :
    (List.zipWith (fun m a => m && !a) mask abs).getD i false = false := by
  induction mask generalizing abs i with
  | nil => simp
  | cons m ms ih =>
    cases abs with
    | nil => simp at h
    | cons a as =>
      cases i with
      | zero =>
        simp only [List.getD_cons_zero] at h
        simp [h]
      | succ j => simpa using ih as j (by simpa using h)

theorem checkHomingMask_mask (c : Controller) (n : String) (mask : List Bool) :
    (checkHomingMask c n mask).1 = c.homingMask ∨
    (checkHomingMask c n mask).1 =
      List.zipWith (fun m a => m && !a) mask c.encoderAbsolute := by
  simp only [checkHomingMask]
  split_ifs <;> simp

theorem checkHomingMask_good (c : Controller) (n : String) (mask : List Bool)
    (h : MaskInv c) :
    ∀ i, c.encoderAbsolute.getD i false = true →
      (checkHomingMask c n mask).1.getD i false = false := by
  intro i hi
  rcases checkHomingMask_mask c n mask with hm | hm
  · rw [hm]; exact h i hi
  · rw [hm]; exact zipWith_filter_getD mask c.encoderAbsolute i hi

theorem unHome_result_mask (c : Controller) (mask : List Bool) :
    (unHome c mask).1.homingMask = (checkHomingMask c "UnHome" mask).1 ∧
    (unHome c mask).1.encoderAbsolute = c.encoderAbsolute := by
  rcases hok : (checkHomingMask c "UnHome" mask).2.1 with _ | _ <;> simp [unHome, hok]

theorem findEdge_result_mask (c : Controller) (mask : List Bool) :
    (findEdge c mask).1.homingMask = (checkHomingMask c "FindEdge" mask).1 ∧
    (findEdge c mask).1.encoderAbsolute = c.encoderAbsolute := by
  rcases hok : (checkHomingMask c "FindEdge" mask).2.1 with _ | _ <;>
    simp [findEdge, hok] <;> split_ifs <;> simp

theorem findIndex_result_mask (c : Controller) (mask : List Bool) :
    (findIndex c mask).1.homingMask = (checkHomingMask c "FindIndex" mask).1 ∧
    (findIndex c mask).1.encoderAbsolute = c.encoderAbsolute := by
  rcases hok : (checkHomingMask c "FindIndex" mask).2.1 with _ | _ <;>
    simp [findIndex, hok] <;> split_ifs <;> simp

theorem home_result_mask (c : Controller) (mask : List Bool) :
    ((home c mask).1.homingMask = (checkHomingMask c "Home" mask).1 ∨
     (home c mask).1.homingMask =
       (checkHomingMask { c with homingMask := (checkHomingMask c "Home" mask).1 }
         "UnHome" (checkHomingMask c "Home" mask).1).1) ∧
    (home c mask).1.encoderAbsolute = c.encoderAbsolute := by
  rcases hok : (checkHomingMask c "Home" mask).2.1 with _ | _
  · constructor
    · left
      simp [home, hok]
    · simp [home, hok]
  · obtain ⟨hum, hua⟩ := unHome_result_mask
      { c with homingMask := (checkHomingMask c "Home" mask).1 }
      (checkHomingMask c "Home" mask).1
    by_cases hpw : c.motorPowerOn = true
    · constructor
      · right
        simp only [home, hok, hpw, finishHome, Bool.not_true, Bool.not_false]
        split_ifs <;> (try split) <;> simp_all
      · simp only [home, hok, hpw, finishHome, Bool.not_true, Bool.not_false]
        split_ifs <;> (try split) <;> simp_all
    · constructor
      · left
        simp [home, hok, hpw]
      · simp [home, hok, hpw]

theorem setSpeed_homingMask (c : Controller) (spd : List Rat) :
    (setSpeed c spd).1.homingMask = c.homingMask ∧
    (setSpeed c spd).1.encoderAbsolute = c.encoderAbsolute := by
  rcases h : galilCmdCommonD c "SP " spd false with _ | cmd <;> simp [setSpeed, h]

theorem homingAxisStep_mask (c : Controller) (i : Nat) :
    ((homingAxisStep c i).1.homingMask = c.homingMask ∨
     (homingAxisStep c i).1.homingMask = c.homingMask.set i false) ∧
    (homingAxisStep c i).1.encoderAbsolute = c.encoderAbsolute := by
  obtain ⟨hm, ha⟩ := setSpeed_homingMask
    { c with homingMask := c.homingMask.set i false,
             actuatorIsHomed := c.actuatorIsHomed.set i true } c.speed
  simp only [homingAxisStep]
  split_ifs <;> simp_all

theorem getD_set_false_le (l : List Bool) (j i : Nat)
    (h : (l.set j false).getD i false = true) : l.getD i false = true := by
  rw [List.getD_eq_getElem?_getD, List.getElem?_set] at h
  rw [List.getD_eq_getElem?_getD]
  by_cases hji : j = i
  · subst hji
    by_cases hl : j < l.length
    · rw [if_pos rfl, if_pos hl] at h
      simp at h
    · rw [if_pos rfl, if_neg hl] at h
      simp at h
  · rwa [if_neg hji] at h

theorem homingLoop_mask (idxs : List Nat) : ∀ c : Controller,
    (∀ i, (homingLoop c idxs).1.homingMask.getD i false = true →
      c.homingMask.getD i false = true) ∧
    (homingLoop c idxs).1.encoderAbsolute = c.encoderAbsolute := by
  induction idxs with
  | nil => intro c; simp [homingLoop]
  | cons j rest ih =>
    intro c
    obtain ⟨hsm, hsa⟩ := homingAxisStep_mask c j
    obtain ⟨ihm, iha⟩ := ih (homingAxisStep c j).1
    constructor
    · intro i hi
      have h2 : (homingAxisStep c j).1.homingMask.getD i false = true := by
        simp only [homingLoop] at hi
        exact ihm i hi
      rcases hsm with hm | hm
      · rw [hm] at h2; exact h2
      · rw [hm] at h2; exact getD_set_false_le _ _ _ h2
    · simp only [homingLoop]
      rw [iha, hsa]

theorem homingFinish_mask (c : Controller) :
    (homingFinish c).1.homingMask = c.homingMask ∧
    (homingFinish c).1.encoderAbsolute = c.encoderAbsolute := by
  simp only [homingFinish]
  split_ifs <;> simp

theorem disableMotorPower_mask (c : Controller) :
    (disableMotorPower c).1.homingMask = c.homingMask ∧
    (disableMotorPower c).1.encoderAbsolute = c.encoderAbsolute := by
  obtain ⟨hm, ha⟩ := setSpeed_homingMask c c.speed
  simp only [disableMotorPower]
  split_ifs <;> simp_all

theorem frameUpdate_mask (c : Controller) (rec : List AxisSample) :
    (frameUpdate c rec).homingMask = c.homingMask ∧
    (frameUpdate c rec).encoderAbsolute = c.encoderAbsolute := ⟨rfl, rfl⟩

theorem framePhase_mask (c : Controller) (recOpt : Option (List AxisSample)) :
    (framePhase c recOpt).1.homingMask = c.homingMask ∧
    (framePhase c recOpt).1.encoderAbsolute = c.encoderAbsolute := by
  rcases recOpt with _ | rec
  · simp [framePhase]
  · obtain ⟨hm, ha⟩ := disableMotorPower_mask
      { frameUpdate c rec with
        timeout := if 0 < (frameUpdate c rec).timeout then (frameUpdate c rec).timeout - 1
                   else (frameUpdate c rec).timeout }
    obtain ⟨hfm2, hfa2⟩ := frameUpdate_mask c rec
    simp only [framePhase]
    split_ifs <;> simp_all

theorem homingRun_maskInv (c4 : Controller) (h4 : MaskInv c4) :
    MaskInv (homingFinish (homingLoop c4 (List.range c4.numAxes)).1).1 := by
  intro i hi
  obtain ⟨hlm, hla⟩ := homingLoop_mask (List.range c4.numAxes) c4
  obtain ⟨hfm2, hfa2⟩ := homingFinish_mask (homingLoop c4 (List.range c4.numAxes)).1
  rw [hfm2]
  by_contra hmask
  rw [Bool.not_eq_false] at hmask
  have hup := hlm i hmask
  have habs : c4.encoderAbsolute.getD i false = true := by
    rw [← hla, ← hfa2]
    exact hi
  rw [h4 i habs] at hup
  exact Bool.false_ne_true hup

theorem runTick_maskInv (c : Controller) (recOpt : Option (List AxisSample))
    (h : MaskInv c) : MaskInv (runTick c recOpt).ctrl := by
  obtain ⟨hfm, hfa⟩ := framePhase_mask c recOpt
  have hinv4 : MaskInv { (framePhase c recOpt).1 with
      opState := (opStateUpdate (framePhase c recOpt).1.opState (framePhase c recOpt).2.2.2
        (framePhase c recOpt).1.motionActive
        ((framePhase c recOpt).1.actuatorIsHomed.all id)).1 } := by
    intro i hi
    show ((framePhase c recOpt).1).homingMask.getD i false = false
    rw [hfm]
    refine h i ?_
    rw [← hfa]
    exact hi
  simp only [runTick]
  split
  · exact fun i hi => hinv4 i hi
  · exact homingRun_maskInv _ hinv4

/-- One externally triggered transition of the controller: a homing-family
request (with arbitrary request mask) or one periodic tick (with arbitrary
frame-read outcome). -/
inductive Step : Controller → Controller → Prop where
  | ofHome (c : Controller) (mask : List Bool) : Step c (home c mask).1
  | ofUnHome (c : Controller) (mask : List Bool) : Step c (unHome c mask).1
  | ofFindEdge (c : Controller) (mask : List Bool) : Step c (findEdge c mask).1
  | ofFindIndex (c : Controller) (mask : List Bool) : Step c (findIndex c mask).1
  | ofTick (c : Controller) (recOpt : Option (List AxisSample)) :
      Step c (runTick c recOpt).ctrl

theorem step_maskInv {c c' : Controller} (h : MaskInv c) (hs : Step c c') : MaskInv c' := by
  cases hs with
  | ofHome mask =>
    obtain ⟨hm, ha⟩ := home_result_mask c mask
    intro i hi
    rw [ha] at hi
    rcases hm with hm | hm
    · rw [hm]
      exact checkHomingMask_good c "Home" mask h i hi
    · rw [hm]
      refine checkHomingMask_good _ "UnHome" _ ?_ i hi
      intro j hj
      exact checkHomingMask_good c "Home" mask h j hj
  | ofUnHome mask =>
    obtain ⟨hm, ha⟩ := unHome_result_mask c mask
    intro i hi
    rw [ha] at hi
    rw [hm]
    exact checkHomingMask_good c "UnHome" mask h i hi
  | ofFindEdge mask =>
    obtain ⟨hm, ha⟩ := findEdge_result_mask c mask
    intro i hi
    rw [ha] at hi
    rw [hm]
    exact checkHomingMask_good c "FindEdge" mask h i hi
  | ofFindIndex mask =>
    obtain ⟨hm, ha⟩ := findIndex_result_mask c mask
    intro i hi
    rw [ha] at hi
    rw [hm]
    exact checkHomingMask_good c "FindIndex" mask h i hi
  | ofTick recOpt => exact runTick_maskInv c recOpt h

/-- C10: from an initially all-false pending mask, no absolute-encoder axis
is ever pending: every accepted Home/UnHome/FindEdge/FindIndex request
stores only axes passing the absolute-encoder filter, and the per-tick
homing state machine only ever clears mask bits. -/
theorem homingMask_absolute_invariant (c0 c : Controller)
    (h0 : ∀ i, c0.homingMask.getD i false = false)
    (hr : Relation.ReflTransGen Step c0 c) :
    ∀ i, c.encoderAbsolute.getD i false = true → c.homingMask.getD i false = false := by
  induction hr with
  | refl => exact fun i _ => h0 i
  | tail hab hbc ih => exact step_maskInv ih hbc

/-- `demoBase` with its single axis configured as an absolute encoder. -/
def demoAbs : Controller :=
  { demoBase with encoderAbsolute := [true], actuatorIsHomed := [true] }

/-- C10 witness: after a Home request for the absolute-encoder axis, that
axis is still not pending. -/
theorem homingMask_absolute_invariant_witness :
    (home demoAbs [true]).1.homingMask.getD 0 false = false := by
  have h := homingMask_absolute_invariant demoAbs (home demoAbs [true]).1
    (fun i => by rcases i with _ | j <;> simp [demoAbs, demoBase])
    (Relation.ReflTransGen.single (Step.ofHome demoAbs [true]))
  exact h 0 (by decide)

end Galil
